import Mathlib

set_option maxHeartbeats 1000000

/-!
Verification development for the stock_analysis repository.

The client-side batch polling logic is embedded from
`src/static/js/batch.js`, the single-analysis form logic from
`src/static/js/single.js`.  The server-side batch engine (BatchJobStore,
BatchRunner) is not present in the repository sources; the definitions for
it are modelled from the specification, as marked in their doc comments.
-/

namespace StockAnalysis

/-! ## Client model: `src/static/js/batch.js` -/

/-- A network request issued by the batch client. -/
inductive Req where
  | statusReq (jobId : String)
  | resultsReq (jobId : String)
deriving DecidableEq, Repr

/-- Outcome of a status poll as seen by `checkBatchStatus`:
a transport error (the `fetch` rejected or the body was unparsable, landing
in the `catch` block), a parsed body with a truthy `error` field (e.g. a
NotFound error), or a parsed body carrying a `status` string and an
optional `error` message used by the `failed` branch. -/
inductive StatusResult where
  | transportError
  | errorField (msg : String)
  | okStatus (status : String) (errMsg : Option String)
deriving DecidableEq, Repr

/-- Events driving the batch page: a successful submit response
(`batchId = data.batch_id; showBatchStatus(); startStatusCheck()`),
an interval tick for timer handle `t`, the arrival of a status response
for a previously issued request, the arrival of the results response
inside `showBatchResults`, the form `reset` handler, and the
`beforeunload` handler. -/
inductive Event where
  | submitOk (jobId : String)
  | tick (t : Nat)
  | statusResponse (jobId : String) (r : StatusResult)
  | resultsResponse (err : Option String)
  | formReset
  | beforeUnload
deriving DecidableEq, Repr

/-- The page state of `batch.js`:
`batchId` and `statusInterval` are the two `let` variables; `activeTimers`
is the set of interval timers currently live in the browser (a fresh
handle is drawn from `nextTimer`); `inFlight` records job ids of status
requests that have been issued but not yet answered; `errorShown` is the
message in the error div when visible (`showError` and `hideError`);
`resultsShown` records whether the results section with its download and
view-results buttons has been displayed. -/
structure ClientState where
  batchId : Option String
  statusInterval : Option Nat
  activeTimers : List Nat
  nextTimer : Nat
  inFlight : List String
  errorShown : Option String
  resultsShown : Bool
deriving DecidableEq, Repr

/-- The state at page load: both `let` variables are `null`, no timers,
nothing in flight, no error shown. -/
def initState : ClientState :=
  { batchId := none, statusInterval := none, activeTimers := [],
    nextTimer := 0, inFlight := [], errorShown := none,
    resultsShown := false }

/-- `clearInterval(statusInterval)`: removes the timer named by the
`statusInterval` variable from the browser's active timers; a no-op when
the variable is `null`.  The variable itself is not changed. -/
def clearTimer (s : ClientState) : ClientState :=
  match s.statusInterval with
  | some t => { s with activeTimers := s.activeTimers.erase t }
  | none => s

/-- `startStatusCheck` (batch.js lines 108-113): clear any existing
interval, then create a fresh one and store its handle. -/
def startStatusCheck (s : ClientState) : ClientState :=
  let s1 := clearTimer s
  { s1 with statusInterval := some s1.nextTimer,
            activeTimers := s1.nextTimer :: s1.activeTimers,
            nextTimer := s1.nextTimer + 1 }

/-- The synchronous part of `checkBatchStatus` (batch.js lines 116-120):
`if (!batchId) return;` then `fetch('/api/batch/status/' + batchId)`,
which issues a status request that becomes in flight. -/
def checkBatchStatus (s : ClientState) : ClientState × List Req :=
  match s.batchId with
  | none => (s, [])
  | some j => ({ s with inFlight := j :: s.inFlight }, [Req.statusReq j])

/-- The continuation of `checkBatchStatus` after the awaited response for
job `j` arrives (batch.js lines 120-143).  A transport error lands in the
`catch` block, which only calls `console.error`.  A truthy `error` field
clears the interval and shows the error.  Otherwise, on `completed` the
interval is cleared and `showBatchResults` fetches the results endpoint
for the current `batchId`; on `failed` the interval is cleared and the
error is shown; any other status only updates the display. -/
def handleStatusResponse (s : ClientState) (j : String) (r : StatusResult) :
    ClientState × List Req :=
  let s0 := { s with inFlight := s.inFlight.erase j }
  match r with
  | StatusResult.transportError => (s0, [])
  | StatusResult.errorField msg =>
      ({ clearTimer s0 with errorShown := some ("상태 확인 오류: " ++ msg) }, [])
  | StatusResult.okStatus st errMsg =>
      if st = "completed" then
        let s1 := clearTimer s0
        (s1, [Req.resultsReq (s1.batchId.getD "null")])
      else if st = "failed" then
        ({ clearTimer s0 with
            errorShown := some ("분석 실패: " ++ errMsg.getD "알 수 없는 오류") }, [])
      else
        (s0, [])

/-- The continuation of `showBatchResults` after the results response
arrives (batch.js lines 169-186): a truthy `error` field shows an error;
otherwise the results section is displayed and the download and
view-results button handlers are installed. -/
def handleResultsResponse (s : ClientState) (err : Option String) : ClientState :=
  match err with
  | some msg => { s with errorShown := some ("결과 조회 오류: " ++ msg) }
  | none => { s with resultsShown := true }

/-- One step of the batch page event loop. -/
def step (s : ClientState) (e : Event) : ClientState × List Req :=
  match e with
  | Event.submitOk j =>
      (startStatusCheck { s with batchId := some j, errorShown := none }, [])
  | Event.tick t =>
      if t ∈ s.activeTimers then checkBatchStatus s else (s, [])
  | Event.statusResponse j r => handleStatusResponse s j r
  | Event.resultsResponse err => (handleResultsResponse s err, [])
  | Event.formReset =>
      let s1 := { s with errorShown := none }
      let s2 := match s1.statusInterval with
        | some t => { s1 with activeTimers := s1.activeTimers.erase t,
                              statusInterval := none }
        | none => s1
      ({ s2 with batchId := none }, [])
  | Event.beforeUnload => (clearTimer s, [])

/-- Run a sequence of events, collecting all requests issued. -/
def run (s : ClientState) : List Event → ClientState × List Req
  | [] => (s, [])
  | e :: es =>
      let p := step s e
      let q := run p.1 es
      (q.1, p.2 ++ q.2)

/-- The timer-bookkeeping invariant of the page: the browser's active
timers are either empty or exactly the single timer recorded in the
`statusInterval` variable. -/
@[reducible] def Inv (s : ClientState) : Prop :=
  s.activeTimers = [] ∨ s.activeTimers = s.statusInterval.toList

/-- "Polling for job `j` is over": whenever `batchId` still names `j`,
no timer is active. -/
def NoPoll (j : String) (s : ClientState) : Prop :=
  s.batchId = some j → s.activeTimers = []

/-- A concrete state reached after a successful submission and one tick:
the timer is active and one status request is in flight. -/
def pollingState : ClientState :=
  (run initState [Event.submitOk "B1", Event.tick 0]).1

/-- A concrete state reached when the first status request of
`pollingState` comes back as a transport error. -/
def transportErrState : ClientState :=
  (run initState [Event.submitOk "B1", Event.tick 0,
    Event.statusResponse "B1" StatusResult.transportError]).1

/-- A JavaScript value as returned by `statusMap[status] || status`:
either a string, or the member named `key` inherited from
`Object.prototype` (a function, or for `__proto__` the prototype object
itself) — a truthy non-string value. -/
inductive JsValue where
  | str (s : String)
  | inherited (key : String)
deriving DecidableEq, Repr

/-- The property names a bracket lookup on an object literal finds on
`Object.prototype` when they are not own properties; each yields a
truthy value. -/
def objectProtoKeys : List String :=
  ["constructor", "hasOwnProperty", "isPrototypeOf", "propertyIsEnumerable",
   "toLocaleString", "toString", "valueOf", "__defineGetter__",
   "__defineSetter__", "__lookupGetter__", "__lookupSetter__", "__proto__"]

/-- `getStatusText` (batch.js lines 210-218): `statusMap[status] || status`.
The bracket lookup finds the four own properties of the `statusMap`
literal first; failing that it consults the prototype chain, so a status
naming an `Object.prototype` member yields that inherited truthy member
and the `|| status` fallback is not taken; only otherwise is the lookup
`undefined` (falsy) and the input string returned unchanged. -/
def getStatusText (status : String) : JsValue :=
  if status = "running" then JsValue.str "분석 중"
  else if status = "completed" then JsValue.str "완료"
  else if status = "failed" then JsValue.str "실패"
  else if status = "waiting" then JsValue.str "대기 중"
  else if status ∈ objectProtoKeys then JsValue.inherited status
  else JsValue.str status

/-- JavaScript `String.prototype.endsWith`, as a suffix check over the
character lists. -/
def jsEndsWith (name tail : String) : Bool :=
  tail.toList.isSuffixOf name.toList

/-- Outcome of the file-input `change` handler: the error message shown
(if any) and whether `fileInput.value` was cleared. -/
structure FileCheckResult where
  errorMsg : Option String
  inputCleared : Bool
deriving DecidableEq, Repr

/-- The file-input `change` handler of batch.js (lines 15-54), applied to
the selected file's size in bytes, MIME type and name.  It rejects files
larger than `1024 * 1024` bytes, then files that are neither of MIME type
`text/plain` nor named with a `.txt` suffix; otherwise it only renders a
preview.  The handler performs no network request in any branch. -/
def handleFileChange (size : Nat) (mime : String) (name : String) :
    FileCheckResult × List Req :=
  if 1024 * 1024 < size then
    ({ errorMsg := some "파일 크기가 1MB를 초과합니다.", inputCleared := true }, [])
  else if mime != "text/plain" && !(jsEndsWith name ".txt") then
    ({ errorMsg := some "텍스트 파일(.txt)만 업로드 가능합니다.", inputCleared := true }, [])
  else
    ({ errorMsg := none, inputCleared := false }, [])

/-! ## Client model: `src/static/js/single.js` -/

/-- Whitespace as removed by JavaScript `String.prototype.trim`
(the common ASCII part). -/
def isJsSpace (c : Char) : Bool :=
  c = ' ' || c = '\t' || c = '\n' || c = '\r' ||
  Char.ofNat 11 = c || Char.ofNat 12 = c

/-- The regular-expression test of the `input` handler
(single.js line 14): the value matches when it is at most six
characters, all decimal digits. -/
def matchesStockRegex (v : List Char) : Bool :=
  decide (v.length ≤ 6) && v.all Char.isDigit

/-- The `input` handler of single.js (lines 11-22): a non-empty value
failing the digit test is replaced by the value with all non-digit
characters removed. -/
def sanitizeStockInput (v : List Char) : List Char :=
  if !v.isEmpty && !matchesStockRegex v then v.filter Char.isDigit else v

/-- JavaScript `trim` over the character list. -/
def trimChars (v : List Char) : List Char :=
  ((v.dropWhile isJsSpace).reverse.dropWhile isJsSpace).reverse

/-- The submit handler's validation (single.js lines 28-33): the trimmed
value is sent (as the request body's `stock_code`) exactly when it is
non-empty and of length six; otherwise an error is shown and no request
is sent.  `some code` means a request carrying `code` is issued. -/
def submitStockCode (v : List Char) : Option (List Char) :=
  let sc := trimChars v
  if sc.isEmpty || decide (sc.length ≠ 6) then none else some sc

/-! ## Server model (modelled from the spec) -/

/-- Modelled from the spec: the closed status enumeration of a batch job,
`waiting`, `running`, `completed`, `failed` (spec §3). -/
inductive JobStatus where
  | waiting | running | completed | failed
deriving DecidableEq, Repr

/-- Modelled from the spec: the store-level error taxonomy needed here
(spec §4.2, §7). -/
inductive StoreError where
  | invalidInput | invalidStateTransition | notFound
deriving DecidableEq, Repr

/-- Modelled from the spec: the opaque outcome of one AnalysisUnit
invocation — a success payload or an item-level error (spec §2, §4.1). -/
inductive Outcome where
  | success (payload : String)
  | failure (err : String)
deriving DecidableEq, Repr

/-- Modelled from the spec: one entry of a job's `results` — either a
success payload or a `{stock_code, error}` record (spec §3). -/
inductive ItemResult where
  | ok (stock_code : String) (payload : String)
  | err (stock_code : String) (error : String)
deriving DecidableEq, Repr

/-- Modelled from the spec: a BatchJob record with its status, aggregate
counters, per-item results and job-level error field (spec §3; the
`items`, `chart_type` and `start_time` fields play no role in the claims
settled here and are omitted). -/
structure BatchJob where
  status : JobStatus
  total : Nat
  completed_count : Nat
  failed_count : Nat
  results : List ItemResult
  error : Option String
deriving DecidableEq, Repr

/-- Modelled from the spec: the job created by `Submit` for `n` items —
`status=running`, `total=len(items)`, counts at zero (spec §4.1). -/
def initialJob (n : Nat) : BatchJob :=
  { status := JobStatus.running, total := n, completed_count := 0,
    failed_count := 0, results := [], error := none }

/-- Modelled from the spec: processing one item — on success append the
payload to `results` and increment `completed_count`; on failure append
`{stock_code, error}` and increment `failed_count` (spec §4.1). -/
def processItem (j : BatchJob) (code : String) (o : Outcome) : BatchJob :=
  match o with
  | Outcome.success p =>
      { j with completed_count := j.completed_count + 1,
               results := j.results ++ [ItemResult.ok code p] }
  | Outcome.failure e =>
      { j with failed_count := j.failed_count + 1,
               results := j.results ++ [ItemResult.err code e] }

/-- Modelled from the spec: BatchRunner processing a list of items, each
with its AnalysisUnit outcome, updating the job incrementally (spec §4.1;
per-item failures are isolated and never abort the batch; job-level
faults are outside this model). -/
def processAll (j : BatchJob) (items : List (String × Outcome)) : BatchJob :=
  items.foldl (fun acc it => processItem acc it.1 it.2) j

/-- Modelled from the spec: the job snapshot observable after the first
`k` items have been processed; once all items are processed the status is
set to `completed` atomically with the last update, so that the invariant
`completed_count + failed_count == total iff terminal` of spec §3 holds
at every observation (spec §4.1, §5). -/
def obsAt (items : List (String × Outcome)) (k : Nat) : BatchJob :=
  let j := processAll (initialJob items.length) (items.take k)
  if items.length ≤ k then { j with status := JobStatus.completed } else j

/-- Number of items of a batch whose outcome is a failure. -/
def countFail : List (String × Outcome) → Nat
  | [] => 0
  | (_, Outcome.failure _) :: rest => countFail rest + 1
  | (_, Outcome.success _) :: rest => countFail rest

/-- Number of items of a batch whose outcome is a success. -/
def countSucc : List (String × Outcome) → Nat
  | [] => 0
  | (_, Outcome.success _) :: rest => countSucc rest + 1
  | (_, Outcome.failure _) :: rest => countSucc rest

/-- The `results` entry produced for one item. -/
def itemToResult (it : String × Outcome) : ItemResult :=
  match it.2 with
  | Outcome.success p => ItemResult.ok it.1 p
  | Outcome.failure e => ItemResult.err it.1 e

/-- Modelled from the spec: the forward transitions of the job lifecycle
`waiting→running→{completed,failed}` (spec §4.2, §8). -/
def allowedTransition : JobStatus → JobStatus → Bool
  | JobStatus.waiting, JobStatus.running => true
  | JobStatus.running, JobStatus.completed => true
  | JobStatus.running, JobStatus.failed => true
  | _, _ => false

/-- Modelled from the spec: `SetStatus` — transitions status only forward
along the lifecycle chain and rejects out-of-order transitions as an
`InvalidStateTransition` fault (spec §4.2). -/
def setStatus (j : BatchJob) (s : JobStatus) (e : Option String) :
    Except StoreError BatchJob :=
  if allowedTransition j.status s then
    Except.ok { j with status := s, error := e }
  else
    Except.error StoreError.invalidStateTransition

/-! ## Helper lemmas: client timer bookkeeping -/

@[simp] theorem clearTimer_batchId (s : ClientState) :
    (clearTimer s).batchId = s.batchId := by
  unfold clearTimer; cases s.statusInterval <;> rfl

@[simp] theorem clearTimer_statusInterval (s : ClientState) :
    (clearTimer s).statusInterval = s.statusInterval := by
  unfold clearTimer; cases hsi : s.statusInterval <;> simp [hsi]

@[simp] theorem clearTimer_nextTimer (s : ClientState) :
    (clearTimer s).nextTimer = s.nextTimer := by
  unfold clearTimer; cases s.statusInterval <;> rfl

@[simp] theorem clearTimer_inFlight (s : ClientState) :
    (clearTimer s).inFlight = s.inFlight := by
  unfold clearTimer; cases s.statusInterval <;> rfl

@[simp] theorem clearTimer_errorShown (s : ClientState) :
    (clearTimer s).errorShown = s.errorShown := by
  unfold clearTimer; cases s.statusInterval <;> rfl

theorem clearTimer_of_empty (s : ClientState) (h : s.activeTimers = []) :
    (clearTimer s).activeTimers = [] := by
  unfold clearTimer; cases s.statusInterval <;> simp [h]

theorem clearTimer_empty (s : ClientState) (h : Inv s) :
    (clearTimer s).activeTimers = [] := by
  rcases h with h | h
  · exact clearTimer_of_empty s h
  · unfold clearTimer
    cases hsi : s.statusInterval with
    | none => rw [hsi] at h; simpa using h
    | some t => rw [hsi] at h; simp [h]

@[simp] theorem startStatusCheck_batchId (s : ClientState) :
    (startStatusCheck s).batchId = s.batchId := by
  simp [startStatusCheck]

theorem startStatusCheck_spec (s : ClientState) (h : Inv s) :
    (startStatusCheck s).activeTimers = [s.nextTimer] ∧
    (startStatusCheck s).statusInterval = some s.nextTimer := by
  constructor
  · show (clearTimer s).nextTimer :: (clearTimer s).activeTimers = [s.nextTimer]
    rw [clearTimer_nextTimer, clearTimer_empty s h]
  · show some (clearTimer s).nextTimer = some s.nextTimer
    rw [clearTimer_nextTimer]

theorem inv_step (s : ClientState) (e : Event) (h : Inv s) : Inv (step s e).1 := by
  cases e with
  | submitOk j =>
      have h' : Inv { s with batchId := some j, errorShown := none } := h
      have hs := startStatusCheck_spec { s with batchId := some j, errorShown := none } h'
      right
      simp only [step]
      rw [hs.1, hs.2]
      rfl
  | tick t =>
      simp only [step]
      split
      · unfold checkBatchStatus
        cases hb : s.batchId with
        | none => exact h
        | some j => exact h
      · exact h
  | statusResponse j r =>
      have h0 : Inv { s with inFlight := s.inFlight.erase j } := h
      simp only [step]
      unfold handleStatusResponse
      cases r with
      | transportError => dsimp only; exact h0
      | errorField m => dsimp only; exact Or.inl (clearTimer_empty _ h0)
      | okStatus st em =>
          dsimp only
          by_cases h1 : st = "completed"
          · rw [if_pos h1]
            exact Or.inl (clearTimer_empty _ h0)
          · rw [if_neg h1]
            by_cases h2 : st = "failed"
            · rw [if_pos h2]
              exact Or.inl (clearTimer_empty _ h0)
            · rw [if_neg h2]
              exact h0
  | resultsResponse err =>
      simp only [step]
      unfold handleResultsResponse
      cases err with
      | none => exact h
      | some m => exact h
  | formReset =>
      simp only [step]
      cases hsi : s.statusInterval with
      | none =>
          simp only [hsi]
          rcases h with h | h
          · exact Or.inl h
          · rw [hsi] at h
            exact Or.inl (by simpa using h)
      | some t =>
          simp only [hsi]
          left
          rcases h with h | h
          · simp [h]
          · rw [hsi] at h; simp [h]
  | beforeUnload => exact Or.inl (clearTimer_empty s h)

theorem inv_run (evs : List Event) (s : ClientState) (h : Inv s) :
    Inv (run s evs).1 := by
  induction evs generalizing s with
  | nil => exact h
  | cons e es ih =>
      simp only [run]
      exact ih (step s e).1 (inv_step s e h)

theorem inv_init : Inv initState := Or.inl rfl

theorem noPoll_step (j : String) (s : ClientState) (e : Event)
    (he : e ≠ Event.submitOk j) (h : NoPoll j s) :
    NoPoll j (step s e).1 ∧ Req.statusReq j ∉ (step s e).2 := by
  cases e with
  | submitOk j' =>
      have hj : j' ≠ j := fun hh => he (by rw [hh])
      constructor
      · intro hb
        rw [show (step s (Event.submitOk j')).1.batchId = some j' by
              simp [step]] at hb
        exact absurd (Option.some.inj hb) hj
      · simp [step]
  | tick t =>
      simp only [step]
      by_cases ht : t ∈ s.activeTimers
      · rw [if_pos ht]
        unfold checkBatchStatus
        cases hb : s.batchId with
        | none => exact ⟨h, by simp⟩
        | some j' =>
            by_cases hjj : j' = j
            · subst hjj
              have := h hb
              rw [this] at ht
              exact absurd ht (List.not_mem_nil t)
            · refine ⟨?_, ?_⟩
              · intro hbb
                dsimp only at hbb
                exact absurd (Option.some.inj hbb) hjj
              · dsimp only
                simp only [List.mem_singleton, Req.statusReq.injEq]
                exact fun hh => hjj hh.symm
      · rw [if_neg ht]
        exact ⟨h, by simp⟩
  | statusResponse j' r =>
      simp only [step]
      unfold handleStatusResponse
      have hbase : NoPoll j ({ s with inFlight := s.inFlight.erase j' }) := h
      cases r with
      | transportError => exact ⟨hbase, by simp⟩
      | errorField m =>
          dsimp only
          refine ⟨?_, by simp⟩
          intro hb
          simp only [clearTimer_batchId] at hb
          exact clearTimer_of_empty _ (h hb)
      | okStatus st em =>
          dsimp only
          by_cases h1 : st = "completed"
          · rw [if_pos h1]
            refine ⟨?_, by simp⟩
            intro hb
            simp only [clearTimer_batchId] at hb
            exact clearTimer_of_empty _ (h hb)
          · rw [if_neg h1]
            by_cases h2 : st = "failed"
            · rw [if_pos h2]
              refine ⟨?_, by simp⟩
              intro hb
              simp only [clearTimer_batchId] at hb
              exact clearTimer_of_empty _ (h hb)
            · rw [if_neg h2]
              exact ⟨hbase, by simp⟩
  | resultsResponse err =>
      simp only [step]
      unfold handleResultsResponse
      cases err with
      | none => exact ⟨h, by simp⟩
      | some m => exact ⟨h, by simp⟩
  | formReset =>
      simp only [step]
      cases hsi : s.statusInterval with
      | none =>
          simp only [hsi]
          exact ⟨fun hb => absurd hb (by simp), by simp⟩
      | some t =>
          simp only [hsi]
          exact ⟨fun hb => absurd hb (by simp), by simp⟩
  | beforeUnload =>
      refine ⟨?_, by simp [step]⟩
      intro hb
      simp only [step, clearTimer_batchId] at hb ⊢
      exact clearTimer_of_empty _ (h hb)

theorem noPoll_run (j : String) : ∀ (evs : List Event) (s : ClientState),
    NoPoll j s → (∀ e ∈ evs, e ≠ Event.submitOk j) →
    NoPoll j (run s evs).1 ∧ ∀ r ∈ (run s evs).2, r ≠ Req.statusReq j := by
  intro evs
  induction evs with
  | nil =>
      intro s h _
      exact ⟨h, by simp [run]⟩
  | cons e es ih =>
      intro s h he
      have he1 : e ≠ Event.submitOk j := he e (List.mem_cons_self e es)
      have hstep := noPoll_step j s e he1 h
      have hrest := ih (step s e).1 hstep.1
        (fun e' hm => he e' (List.mem_cons_of_mem e hm))
      refine ⟨hrest.1, ?_⟩
      intro r hr hreq
      simp only [run, List.mem_append] at hr
      rcases hr with hr | hr
      · rw [hreq] at hr
        exact hstep.2 hr
      · exact hrest.2 r hr hreq

/-! ## Helper lemmas: batch runner (modelled from the spec) -/

theorem countSucc_add_countFail (items : List (String × Outcome)) :
    countSucc items + countFail items = items.length := by
  induction items with
  | nil => rfl
  | cons x xs ih =>
      obtain ⟨c, o⟩ := x
      cases o with
      | success p => simp only [countSucc, countFail, List.length_cons]; omega
      | failure e => simp only [countSucc, countFail, List.length_cons]; omega

theorem processAll_cons (j : BatchJob) (x : String × Outcome)
    (xs : List (String × Outcome)) :
    processAll j (x :: xs) = processAll (processItem j x.1 x.2) xs := rfl

theorem processAll_total (items : List (String × Outcome)) :
    ∀ j : BatchJob, (processAll j items).total = j.total := by
  induction items with
  | nil => intro j; rfl
  | cons x xs ih =>
      intro j
      rw [processAll_cons, ih]
      cases hx : x.2 <;> simp [processItem, hx]

theorem processAll_status (items : List (String × Outcome)) :
    ∀ j : BatchJob, (processAll j items).status = j.status := by
  induction items with
  | nil => intro j; rfl
  | cons x xs ih =>
      intro j
      rw [processAll_cons, ih]
      cases hx : x.2 <;> simp [processItem, hx]

theorem processAll_completed (items : List (String × Outcome)) :
    ∀ j : BatchJob,
      (processAll j items).completed_count = j.completed_count + countSucc items := by
  induction items with
  | nil => intro j; rfl
  | cons x xs ih =>
      intro j
      rw [processAll_cons, ih]
      obtain ⟨c, o⟩ := x
      cases o with
      | success p => simp only [processItem, countSucc]; omega
      | failure e => simp only [processItem, countSucc]

theorem processAll_failed (items : List (String × Outcome)) :
    ∀ j : BatchJob,
      (processAll j items).failed_count = j.failed_count + countFail items := by
  induction items with
  | nil => intro j; rfl
  | cons x xs ih =>
      intro j
      rw [processAll_cons, ih]
      obtain ⟨c, o⟩ := x
      cases o with
      | success p => simp only [processItem, countFail]
      | failure e => simp only [processItem, countFail]; omega

theorem processAll_results (items : List (String × Outcome)) :
    ∀ j : BatchJob,
      (processAll j items).results = j.results ++ items.map itemToResult := by
  induction items with
  | nil => intro j; simp [processAll]
  | cons x xs ih =>
      intro j
      rw [processAll_cons, ih]
      obtain ⟨c, o⟩ := x
      cases o with
      | success p => simp [processItem, itemToResult]
      | failure e => simp [processItem, itemToResult]

theorem obsAt_spec (items : List (String × Outcome)) (k : Nat)
    (hk : k ≤ items.length) :
    (obsAt items k).total = items.length ∧
    (obsAt items k).completed_count = countSucc (items.take k) ∧
    (obsAt items k).failed_count = countFail (items.take k) ∧
    (obsAt items k).completed_count + (obsAt items k).failed_count = k ∧
    (obsAt items k).status =
      (if items.length ≤ k then JobStatus.completed else JobStatus.running) ∧
    (obsAt items k).results = (items.take k).map itemToResult := by
  have hlen : (items.take k).length = k := by
    rw [List.length_take]
    omega
  have hsum : countSucc (items.take k) + countFail (items.take k) = k := by
    rw [countSucc_add_countFail, hlen]
  unfold obsAt
  by_cases hif : items.length ≤ k
  · rw [if_pos hif]
    refine ⟨?_, ?_, ?_, ?_, ?_, ?_⟩
    · show (processAll (initialJob items.length) (items.take k)).total = items.length
      rw [processAll_total]
      rfl
    · show (processAll (initialJob items.length) (items.take k)).completed_count = _
      rw [processAll_completed]
      simp [initialJob]
    · show (processAll (initialJob items.length) (items.take k)).failed_count = _
      rw [processAll_failed]
      simp [initialJob]
    · show (processAll (initialJob items.length) (items.take k)).completed_count +
        (processAll (initialJob items.length) (items.take k)).failed_count = k
      rw [processAll_completed, processAll_failed]
      simpa [initialJob] using hsum
    · simp [hif]
    · show (processAll (initialJob items.length) (items.take k)).results = _
      rw [processAll_results]
      simp [initialJob]
  · rw [if_neg hif]
    refine ⟨?_, ?_, ?_, ?_, ?_, ?_⟩
    · rw [processAll_total]
      rfl
    · rw [processAll_completed]
      simp [initialJob]
    · rw [processAll_failed]
      simp [initialJob]
    · rw [processAll_completed, processAll_failed]
      simpa [initialJob] using hsum
    · rw [processAll_status]
      simp [initialJob, hif]
    · rw [processAll_results]
      simp [initialJob]

/-! ## Helper lemmas: stock-code input sanitization -/

theorem sanitize_all_digits (v : List Char) :
    (sanitizeStockInput v).all Char.isDigit = true := by
  unfold sanitizeStockInput
  by_cases he : v.isEmpty = true
  · have hv : v = [] := by
      cases v with
      | nil => rfl
      | cons a l => simp [List.isEmpty] at he
    subst hv
    decide
  · by_cases hm : matchesStockRegex v = true
    · rw [if_neg (by simp [hm])]
      unfold matchesStockRegex at hm
      simp only [Bool.and_eq_true] at hm
      exact hm.2
    · rw [if_pos (by simp [he, hm])]
      rw [List.all_eq_true]
      intro c hc
      exact (List.mem_filter.mp hc).2

theorem digit_not_space (c : Char) (h : c.isDigit = true) :
    isJsSpace c = false := by
  cases hsp : isJsSpace c with
  | false => rfl
  | true =>
      exfalso
      unfold isJsSpace at hsp
      simp only [Bool.or_eq_true, decide_eq_true_eq] at hsp
      rcases hsp with ((((h1 | h1) | h1) | h1) | h1) | h1 <;>
        (subst h1; exact absurd h (by decide))

theorem dropWhile_of_false (p : Char → Bool) (l : List Char)
    (h : ∀ c ∈ l, p c = false) : l.dropWhile p = l := by
  cases l with
  | nil => rfl
  | cons a as =>
      have ha := h a (List.mem_cons_self a as)
      simp [List.dropWhile_cons, ha]

theorem trim_of_digits (v : List Char) (h : v.all Char.isDigit = true) :
    trimChars v = v := by
  have hall : ∀ c ∈ v, Char.isDigit c = true := by
    rw [List.all_eq_true] at h
    exact h
  have h1 : ∀ c ∈ v, isJsSpace c = false :=
    fun c hc => digit_not_space c (hall c hc)
  unfold trimChars
  rw [dropWhile_of_false isJsSpace v h1,
      dropWhile_of_false isJsSpace v.reverse
        (fun c hc => h1 c (List.mem_reverse.mp hc)),
      List.reverse_reverse]

/-! ## Claim C1 -/

/-- Claim C1 is false on the code: in the concrete state reached after a
submission and one tick, a status request for "B1" is still in flight
(no response has arrived), yet the next tick is not a no-op — it issues a
second, overlapping status request to the status endpoint. -/
theorem c1_counterexample :
    pollingState.inFlight = ["B1"] ∧
    pollingState.activeTimers = [0] ∧
    (step pollingState (Event.tick 0)).2 = [Req.statusReq "B1"] :=
  ⟨by decide, by decide, by decide⟩

/-- Claim C1 (amended): `checkBatchStatus` has no in-flight guard — a
timer tick that fires with the timer active is a no-op exactly when
`batchId` is null, and otherwise issues a status request regardless of
whether a previous request is still in flight. -/
theorem c1_tick_no_overlap_guard (s : ClientState) (t : Nat)
    (ht : t ∈ s.activeTimers) :
    (s.batchId = none → (step s (Event.tick t)).2 = []) ∧
    (∀ j, s.batchId = some j →
      (step s (Event.tick t)).2 = [Req.statusReq j]) := by
  constructor
  · intro hb
    simp [step, ht, checkBatchStatus, hb]
  · intro j hb
    simp [step, ht, checkBatchStatus, hb]

/-- Witness for C1's amended theorem at the concrete polling state. -/
theorem c1_witness :
    (step pollingState (Event.tick 0)).2 = [Req.statusReq "B1"] :=
  (c1_tick_no_overlap_guard pollingState 0 (by decide)).2 "B1" (by decide)

/-! ## Claim C2 -/

/-- Claim C2 is false on the code for transport errors: in the concrete
state reached when the first status request fails with a transport error,
the polling timer is still active, no error message is displayed, and the
next tick issues a further status request — the client retries rather
than stopping. -/
theorem c2_counterexample :
    transportErrState.activeTimers = [0] ∧
    transportErrState.errorShown = none ∧
    (step transportErrState (Event.tick 0)).2 = [Req.statusReq "B1"] :=
  ⟨by decide, by decide, by decide⟩

/-- Claim C2 (amended): on a status response carrying an error field
(such as NotFound) the client stops the polling timer and displays the
error message; on a transport error (failed fetch / unparsable response)
it only logs to the console, leaving the timer and the error display
unchanged, so polling continues. -/
theorem c2_error_response_handling (s : ClientState) (hInv : Inv s)
    (j msg : String) :
    ((step s (Event.statusResponse j (StatusResult.errorField msg))).1.activeTimers = [] ∧
     (step s (Event.statusResponse j (StatusResult.errorField msg))).1.errorShown =
       some ("상태 확인 오류: " ++ msg)) ∧
    ((step s (Event.statusResponse j StatusResult.transportError)).1.activeTimers =
       s.activeTimers ∧
     (step s (Event.statusResponse j StatusResult.transportError)).1.errorShown =
       s.errorShown) := by
  have h0 : Inv { s with inFlight := s.inFlight.erase j } := hInv
  refine ⟨⟨?_, ?_⟩, ?_, ?_⟩
  · simp only [step]
    unfold handleStatusResponse
    dsimp only
    exact clearTimer_empty _ h0
  · rfl
  · rfl
  · rfl

/-- Witness for C2's amended theorem at the concrete polling state. -/
theorem c2_witness :
    ((step pollingState
        (Event.statusResponse "B1" (StatusResult.errorField "Not Found"))).1.activeTimers = [] ∧
     (step pollingState
        (Event.statusResponse "B1" (StatusResult.errorField "Not Found"))).1.errorShown =
       some ("상태 확인 오류: " ++ "Not Found")) ∧
    ((step pollingState
        (Event.statusResponse "B1" StatusResult.transportError)).1.activeTimers =
       pollingState.activeTimers ∧
     (step pollingState
        (Event.statusResponse "B1" StatusResult.transportError)).1.errorShown =
       pollingState.errorShown) :=
  c2_error_response_handling pollingState (by decide) "B1" "Not Found"

/-! ## Claim C3 -/

/-- Claim C3: when a poll observes `completed`, the client stops the
timer and fetches the results endpoint (whose successful response then
displays the results section with the download and summary actions);
when it observes `failed`, the client stops the timer and surfaces the
error message; and after either terminal observation no further status
request for a job id is issued on any continuation that contains no new
submission returning that id. -/
theorem c3_terminal_handling (s : ClientState) (hInv : Inv s) (j : String)
    (e : Option String) :
    ((step s (Event.statusResponse j (StatusResult.okStatus "completed" e))).1.activeTimers = [] ∧
     (step s (Event.statusResponse j (StatusResult.okStatus "completed" e))).2 =
       [Req.resultsReq (s.batchId.getD "null")]) ∧
    ((step s (Event.statusResponse j (StatusResult.okStatus "failed" e))).1.activeTimers = [] ∧
     (step s (Event.statusResponse j (StatusResult.okStatus "failed" e))).1.errorShown =
       some ("분석 실패: " ++ e.getD "알 수 없는 오류")) ∧
    ((step s (Event.resultsResponse none)).1.resultsShown = true) ∧
    (∀ st : String, (st = "completed" ∨ st = "failed") →
      ∀ (j' : String) (evs : List Event),
        (∀ ev ∈ evs, ev ≠ Event.submitOk j') →
        ∀ r ∈ (run (step s (Event.statusResponse j (StatusResult.okStatus st e))).1 evs).2,
          r ≠ Req.statusReq j') := by
  have h0 : Inv { s with inFlight := s.inFlight.erase j } := hInv
  have hterm : ∀ st : String, (st = "completed" ∨ st = "failed") →
      (step s (Event.statusResponse j (StatusResult.okStatus st e))).1.activeTimers = [] := by
    intro st hst
    simp only [step]
    unfold handleStatusResponse
    dsimp only
    rcases hst with rfl | rfl
    · rw [if_pos rfl]
      exact clearTimer_empty _ h0
    · rw [if_neg (by decide), if_pos rfl]
      exact clearTimer_empty _ h0
  refine ⟨⟨hterm "completed" (Or.inl rfl), ?_⟩, ⟨hterm "failed" (Or.inr rfl), ?_⟩, rfl, ?_⟩
  · simp only [step]
    unfold handleStatusResponse
    dsimp only
    rw [if_pos rfl]
    rw [clearTimer_batchId]
  · simp only [step]
    unfold handleStatusResponse
    dsimp only
    rw [if_neg (by decide), if_pos rfl]
  · intro st hst j' evs hevs
    have hnp : NoPoll j'
        (step s (Event.statusResponse j (StatusResult.okStatus st e))).1 :=
      fun _ => hterm st hst
    exact (noPoll_run j' evs _ hnp hevs).2

/-- Witness for C3 at the concrete polling state, with a tick after the
terminal observation. -/
theorem c3_witness :
    (step pollingState
      (Event.statusResponse "B1" (StatusResult.okStatus "completed" none))).1.activeTimers = [] ∧
    (∀ r ∈ (run (step pollingState
        (Event.statusResponse "B1" (StatusResult.okStatus "completed" none))).1
        [Event.tick 0]).2,
      r ≠ Req.statusReq "B1") :=
  ⟨(c3_terminal_handling pollingState (by decide) "B1" none).1.1,
   (c3_terminal_handling pollingState (by decide) "B1" none).2.2.2
     "completed" (Or.inl rfl) "B1" [Event.tick 0] (by decide)⟩

/-! ## Claim C10 -/

/-- Claim C10: at most one polling timer is ever active per page —
every state reachable from page load has at most one active timer;
`startStatusCheck` (run on submit) replaces any existing interval with
exactly the fresh one; form reset and page unload clear the interval,
and so do status-error and terminal responses; after a form reset,
`batchId` is null, and an invocation of `checkBatchStatus` in any state
with a null `batchId` issues no request. -/
theorem c10_single_timer :
    (∀ evs : List Event, (run initState evs).1.activeTimers.length ≤ 1) ∧
    (∀ (s : ClientState) (j : String), Inv s →
      (step s (Event.submitOk j)).1.activeTimers = [s.nextTimer]) ∧
    (∀ s : ClientState, Inv s →
      (step s Event.formReset).1.activeTimers = [] ∧
      (step s Event.formReset).1.batchId = none ∧
      (step s Event.beforeUnload).1.activeTimers = []) ∧
    (∀ (s : ClientState) (j m : String) (e : Option String), Inv s →
      (step s (Event.statusResponse j (StatusResult.errorField m))).1.activeTimers = [] ∧
      (step s (Event.statusResponse j (StatusResult.okStatus "completed" e))).1.activeTimers = [] ∧
      (step s (Event.statusResponse j (StatusResult.okStatus "failed" e))).1.activeTimers = []) ∧
    (∀ s : ClientState, s.batchId = none → checkBatchStatus s = (s, [])) := by
  refine ⟨?_, ?_, ?_, ?_, ?_⟩
  · intro evs
    have hinv := inv_run evs initState inv_init
    rcases hinv with hh | hh
    · rw [hh]; decide
    · rw [hh]
      cases (run initState evs).1.statusInterval <;> simp
  · intro s j hInv
    have h' : Inv { s with batchId := some j, errorShown := none } := hInv
    exact (startStatusCheck_spec _ h').1
  · intro s hInv
    refine ⟨?_, ?_, ?_⟩
    · simp only [step]
      cases hsi : s.statusInterval with
      | none =>
          simp only [hsi]
          rcases hInv with hh | hh
          · exact hh
          · rw [hsi] at hh; simpa using hh
      | some t =>
          simp only [hsi]
          rcases hInv with hh | hh
          · simp [hh]
          · rw [hsi] at hh; simp [hh]
    · rfl
    · exact clearTimer_empty s hInv
  · intro s j m e hInv
    have h0 : Inv { s with inFlight := s.inFlight.erase j } := hInv
    refine ⟨?_, ?_, ?_⟩
    · simp only [step]
      unfold handleStatusResponse
      dsimp only
      exact clearTimer_empty _ h0
    · simp only [step]
      unfold handleStatusResponse
      dsimp only
      rw [if_pos rfl]
      exact clearTimer_empty _ h0
    · simp only [step]
      unfold handleStatusResponse
      dsimp only
      rw [if_neg (by decide), if_pos rfl]
      exact clearTimer_empty _ h0
  · intro s hb
    simp [checkBatchStatus, hb]

/-- Witness for C10: the reachability bound on a concrete trace with a
resubmission, and the reset conjunct at the concrete polling state. -/
theorem c10_witness :
    ((run initState [Event.submitOk "B1", Event.tick 0,
        Event.submitOk "B2"]).1.activeTimers.length ≤ 1) ∧
    ((step pollingState Event.formReset).1.activeTimers = [] ∧
     (step pollingState Event.formReset).1.batchId = none ∧
     (step pollingState Event.beforeUnload).1.activeTimers = []) :=
  ⟨c10_single_timer.1 [Event.submitOk "B1", Event.tick 0, Event.submitOk "B2"],
   c10_single_timer.2.2.1 pollingState (by decide)⟩

/-! ## Claim C4 -/

/-- Claim C4 (on the runner modelled from the spec): at every observable
snapshot of a batch job, `completed_count + failed_count` never exceeds
`total` and equals `total` exactly when the status is terminal
(`completed` or `failed`); and over any pair of successive observations
the sum is non-decreasing. -/
theorem c4_progress_invariant (items : List (String × Outcome)) (k : Nat)
    (hk : k ≤ items.length) :
    ((obsAt items k).completed_count + (obsAt items k).failed_count ≤
      (obsAt items k).total) ∧
    ((obsAt items k).completed_count + (obsAt items k).failed_count =
        (obsAt items k).total ↔
      ((obsAt items k).status = JobStatus.completed ∨
       (obsAt items k).status = JobStatus.failed)) ∧
    (∀ k', k ≤ k' → k' ≤ items.length →
      (obsAt items k).completed_count + (obsAt items k).failed_count ≤
        (obsAt items k').completed_count + (obsAt items k').failed_count) := by
  obtain ⟨ht, _, _, hsum, hst, _⟩ := obsAt_spec items k hk
  refine ⟨?_, ?_, ?_⟩
  · rw [hsum, ht]; exact hk
  · rw [hsum, ht, hst]
    by_cases hif : items.length ≤ k
    · rw [if_pos hif]
      constructor
      · intro _; exact Or.inl rfl
      · intro _; omega
    · rw [if_neg hif]
      constructor
      · intro hh; exact absurd hh (by omega)
      · rintro (hh | hh) <;> exact absurd hh (by decide)
  · intro k' hkk' hk'
    rw [hsum, (obsAt_spec items k' hk').2.2.2.1]
    exact hkk'

/-- Witness for C4 on a concrete two-item batch, comparing the
observations after one and after two items. -/
theorem c4_witness :
    ((obsAt [("005930", Outcome.success "p"), ("000660", Outcome.failure "e")] 1).completed_count +
      (obsAt [("005930", Outcome.success "p"), ("000660", Outcome.failure "e")] 1).failed_count ≤
      (obsAt [("005930", Outcome.success "p"), ("000660", Outcome.failure "e")] 1).total) ∧
    (obsAt [("005930", Outcome.success "p"), ("000660", Outcome.failure "e")] 1).completed_count +
      (obsAt [("005930", Outcome.success "p"), ("000660", Outcome.failure "e")] 1).failed_count ≤
      (obsAt [("005930", Outcome.success "p"), ("000660", Outcome.failure "e")] 2).completed_count +
      (obsAt [("005930", Outcome.success "p"), ("000660", Outcome.failure "e")] 2).failed_count :=
  ⟨(c4_progress_invariant
      [("005930", Outcome.success "p"), ("000660", Outcome.failure "e")] 1 (by decide)).1,
   (c4_progress_invariant
      [("005930", Outcome.success "p"), ("000660", Outcome.failure "e")] 1 (by decide)).2.2
      2 (by decide) (by decide)⟩

/-! ## Claim C5 -/

/-- Claim C5 (on `SetStatus` modelled from the spec): a `setStatus` call
succeeds exactly on the forward transitions of
`waiting→running→{completed,failed}` — a call from a terminal state, or
one from `waiting` to anything but `running` (so no job skips `running`),
is rejected with an `InvalidStateTransition` fault and any out-of-order
call is so rejected. -/
theorem c5_setStatus_transitions (j : BatchJob) (s : JobStatus)
    (e : Option String) :
    (∀ j', setStatus j s e = Except.ok j' →
      allowedTransition j.status s = true ∧ j'.status = s) ∧
    (allowedTransition j.status s = false →
      setStatus j s e = Except.error StoreError.invalidStateTransition) ∧
    ((j.status = JobStatus.completed ∨ j.status = JobStatus.failed) →
      setStatus j s e = Except.error StoreError.invalidStateTransition) ∧
    (j.status = JobStatus.waiting → s ≠ JobStatus.running →
      setStatus j s e = Except.error StoreError.invalidStateTransition) ∧
    (∀ a b : JobStatus, allowedTransition a b = true ↔
      ((a = JobStatus.waiting ∧ b = JobStatus.running) ∨
       (a = JobStatus.running ∧
         (b = JobStatus.completed ∨ b = JobStatus.failed)))) := by
  refine ⟨?_, ?_, ?_, ?_, ?_⟩
  · intro j' hok
    unfold setStatus at hok
    by_cases hall : allowedTransition j.status s = true
    · rw [if_pos hall] at hok
      refine ⟨hall, ?_⟩
      injection hok with hh
      rw [← hh]
    · rw [if_neg hall] at hok
      exact absurd hok (by simp)
  · intro hfalse
    simp [setStatus, hfalse]
  · intro hterm
    have hfalse : allowedTransition j.status s = false := by
      rcases hterm with hh | hh <;> rw [hh] <;> cases s <;> rfl
    simp [setStatus, hfalse]
  · intro hw hs
    have hfalse : allowedTransition j.status s = false := by
      rw [hw]
      cases s with
      | waiting => rfl
      | running => exact absurd rfl hs
      | completed => rfl
      | failed => rfl
    simp [setStatus, hfalse]
  · intro a b
    cases a <;> cases b <;> decide

/-- Witness for C5: a terminal job rejects a transition back to
`running`, and the successful-transition characterization at concrete
statuses. -/
theorem c5_witness :
    setStatus { initialJob 2 with status := JobStatus.completed }
        JobStatus.running none =
      Except.error StoreError.invalidStateTransition ∧
    (allowedTransition JobStatus.waiting JobStatus.completed = true ↔
      ((JobStatus.waiting = JobStatus.waiting ∧
        JobStatus.completed = JobStatus.running) ∨
       (JobStatus.waiting = JobStatus.running ∧
         (JobStatus.completed = JobStatus.completed ∨
          JobStatus.completed = JobStatus.failed)))) :=
  ⟨(c5_setStatus_transitions { initialJob 2 with status := JobStatus.completed }
      JobStatus.running none).2.2.1 (Or.inl rfl),
   (c5_setStatus_transitions (initialJob 2) JobStatus.running none).2.2.2.2
      JobStatus.waiting JobStatus.completed⟩

/-! ## Claim C6 -/

/-- Claim C6 (on the runner modelled from the spec): a batch of `N` items
of which exactly `K` fail with per-item faults (and no job-level fault)
ends with `completed_count = N - K`, `failed_count = K`, status
`completed`, every failing item present in `results` with its error, and
every other item present with its analysis payload. -/
theorem c6_isolation (items : List (String × Outcome)) (N K : Nat)
    (hN : N = items.length) (hK : K = countFail items) :
    (obsAt items N).completed_count = N - K ∧
    (obsAt items N).failed_count = K ∧
    (obsAt items N).status = JobStatus.completed ∧
    (∀ c e, (c, Outcome.failure e) ∈ items →
      ItemResult.err c e ∈ (obsAt items N).results) ∧
    (∀ c p, (c, Outcome.success p) ∈ items →
      ItemResult.ok c p ∈ (obsAt items N).results) := by
  subst hN hK
  have htake : items.take items.length = items := List.take_length items
  obtain ⟨ht, hcc, hfc, hsum, hst, hres⟩ :=
    obsAt_spec items items.length le_rfl
  rw [htake] at hcc hfc hres
  refine ⟨?_, ?_, ?_, ?_, ?_⟩
  · rw [hcc]
    have := countSucc_add_countFail items
    omega
  · exact hfc
  · rw [hst, if_pos le_rfl]
  · intro c e hm
    rw [hres]
    exact List.mem_map_of_mem itemToResult hm
  · intro c p hm
    rw [hres]
    exact List.mem_map_of_mem itemToResult hm

/-- Witness for C6 on a concrete three-item batch with one failing
item. -/
theorem c6_witness :
    (obsAt [("005930", Outcome.success "a"), ("000660", Outcome.failure "boom"),
        ("005380", Outcome.success "c")] 3).completed_count = 3 - 1 ∧
    (obsAt [("005930", Outcome.success "a"), ("000660", Outcome.failure "boom"),
        ("005380", Outcome.success "c")] 3).failed_count = 1 ∧
    (obsAt [("005930", Outcome.success "a"), ("000660", Outcome.failure "boom"),
        ("005380", Outcome.success "c")] 3).status = JobStatus.completed ∧
    ItemResult.err "000660" "boom" ∈
      (obsAt [("005930", Outcome.success "a"), ("000660", Outcome.failure "boom"),
        ("005380", Outcome.success "c")] 3).results :=
  have h := c6_isolation
    [("005930", Outcome.success "a"), ("000660", Outcome.failure "boom"),
      ("005380", Outcome.success "c")] 3 1 (by decide) (by decide)
  ⟨h.1, h.2.1, h.2.2.1, h.2.2.2.1 "000660" "boom" (by decide)⟩

/-! ## Claim C7 -/

/-- Claim C7: the file-input change handler issues no network request in
any branch; it rejects (showing an error and clearing the input) exactly
the files that are strictly larger than 1 MiB or are neither of MIME
type `text/plain` nor named with a `.txt` extension; a file of exactly
1,048,576 bytes passes the size check while one byte more fails it. -/
theorem c7_file_validation :
    (∀ (sz : Nat) (mime fname : String), (handleFileChange sz mime fname).2 = []) ∧
    (∀ (sz : Nat) (mime fname : String),
      (handleFileChange sz mime fname).1.errorMsg.isSome = true ↔
        (1048576 < sz ∨ (mime ≠ "text/plain" ∧ jsEndsWith fname ".txt" = false))) ∧
    (∀ (sz : Nat) (mime fname : String),
      (handleFileChange sz mime fname).1.inputCleared =
        (handleFileChange sz mime fname).1.errorMsg.isSome) ∧
    (∀ mime fname : String,
      (handleFileChange 1048576 mime fname).1.errorMsg ≠
        some "파일 크기가 1MB를 초과합니다.") ∧
    (∀ mime fname : String,
      (handleFileChange 1048577 mime fname).1.errorMsg =
        some "파일 크기가 1MB를 초과합니다.") ∧
    (handleFileChange 1048576 "text/plain" "stocks.txt").1.errorMsg = none := by
  refine ⟨?_, ?_, ?_, ?_, ?_, by decide⟩
  · intro sz mime fname
    unfold handleFileChange
    split
    · rfl
    · split
      · rfl
      · rfl
  · intro sz mime fname
    unfold handleFileChange
    by_cases hsz : 1024 * 1024 < sz
    · rw [if_pos hsz]
      simp only [Option.isSome_some, true_iff]
      exact Or.inl (by omega)
    · rw [if_neg hsz]
      by_cases hty : (mime != "text/plain" && !jsEndsWith fname ".txt") = true
      · rw [if_pos hty]
        simp only [Bool.and_eq_true, bne_iff_ne, Bool.not_eq_true'] at hty
        simp only [Option.isSome_some, true_iff]
        exact Or.inr hty
      · rw [if_neg hty]
        simp only [Option.isSome_none, Bool.false_eq_true, false_iff]
        rintro (hcon | hcon)
        · exact hsz (by omega)
        · exact hty (by
            simp only [Bool.and_eq_true, bne_iff_ne, Bool.not_eq_true']
            exact hcon)
  · intro sz mime fname
    unfold handleFileChange
    split
    · rfl
    · split
      · rfl
      · rfl
  · intro mime fname
    unfold handleFileChange
    rw [if_neg (by omega)]
    split
    · intro hh
      exact absurd (Option.some.inj hh) (by decide)
    · simp
  · intro mime fname
    unfold handleFileChange
    rw [if_pos (by omega)]

/-- Witness for C7: the general request-freedom and the rejection
characterization evaluated at a concrete oversized file. -/
theorem c7_witness :
    (handleFileChange 2000000 "text/plain" "stocks.txt").2 = [] ∧
    ((handleFileChange 2000000 "text/plain" "stocks.txt").1.errorMsg.isSome = true ↔
      (1048576 < 2000000 ∨ ("text/plain" ≠ "text/plain" ∧
        jsEndsWith "stocks.txt" ".txt" = false))) :=
  ⟨c7_file_validation.1 2000000 "text/plain" "stocks.txt",
   c7_file_validation.2.1 2000000 "text/plain" "stocks.txt"⟩

/-! ## Claim C8 -/

/-- Claim C8: after the input handler's sanitization, the submit handler
sends the stock code to the server exactly when it is a string of
exactly six digits; concretely "005930" is submitted while "59300"
(five digits) and "00593a" (whose non-digit is stripped by the input
filter, leaving five digits) are rejected without a request. -/
theorem c8_stock_code_submission :
    (∀ raw : List Char,
      (submitStockCode (sanitizeStockInput raw)).isSome = true ↔
        ((sanitizeStockInput raw).length = 6 ∧
         (sanitizeStockInput raw).all Char.isDigit = true)) ∧
    (submitStockCode (sanitizeStockInput "005930".toList) =
      some "005930".toList) ∧
    (submitStockCode (sanitizeStockInput "59300".toList) = none) ∧
    (submitStockCode (sanitizeStockInput "00593a".toList) = none) := by
  refine ⟨?_, by decide, by decide, by decide⟩
  intro raw
  have hdig := sanitize_all_digits raw
  constructor
  · intro hsome
    refine ⟨?_, hdig⟩
    unfold submitStockCode at hsome
    rw [trim_of_digits _ hdig] at hsome
    by_cases hl : (sanitizeStockInput raw).length = 6
    · exact hl
    · rw [if_pos (by simp [hl])] at hsome
      simp at hsome
  · rintro ⟨hlen, _⟩
    unfold submitStockCode
    rw [trim_of_digits _ hdig]
    have hne : (sanitizeStockInput raw).isEmpty = false := by
      cases hv : sanitizeStockInput raw with
      | nil => rw [hv] at hlen; simp at hlen
      | cons a l => rfl
    rw [if_neg (by simp [hne, hlen])]
    rfl

/-- Witness for C8: the submission criterion evaluated at the accepted
six-digit code. -/
theorem c8_witness :
    (submitStockCode (sanitizeStockInput "005930".toList)).isSome = true :=
  (c8_stock_code_submission.1 "005930".toList).mpr (by decide)

/-! ## Claim C9 -/

/-- Claim C9 is false on the code: `statusMap[status] || status`
consults the prototype chain, so the input "toString" yields the
inherited truthy `Object.prototype.toString` member and the function
returns it — not the input string itself. -/
theorem c9_counterexample :
    getStatusText "toString" = JsValue.inherited "toString" ∧
    getStatusText "toString" ≠ JsValue.str "toString" :=
  ⟨by decide, by decide⟩

/-- Claim C9 (amended): `getStatusText` maps the four known statuses to
their Korean display labels; any other status string is returned
unchanged unless it names an inherited `Object.prototype` member (such
as "toString", "valueOf", "hasOwnProperty", "constructor" or
"__proto__"), in which case the truthy inherited member is returned
instead of the input string. -/
theorem c9_statusText_mapping :
    getStatusText "waiting" = JsValue.str "대기 중" ∧
    getStatusText "running" = JsValue.str "분석 중" ∧
    getStatusText "completed" = JsValue.str "완료" ∧
    getStatusText "failed" = JsValue.str "실패" ∧
    (∀ st : String, st ≠ "waiting" → st ≠ "running" → st ≠ "completed" →
      st ≠ "failed" → st ∉ objectProtoKeys →
      getStatusText st = JsValue.str st) ∧
    (∀ st : String, st ≠ "waiting" → st ≠ "running" → st ≠ "completed" →
      st ≠ "failed" → st ∈ objectProtoKeys →
      getStatusText st = JsValue.inherited st) := by
  refine ⟨by decide, by decide, by decide, by decide, ?_, ?_⟩
  · intro st h1 h2 h3 h4 h5
    unfold getStatusText
    rw [if_neg h2, if_neg h3, if_neg h4, if_neg h1, if_neg h5]
  · intro st h1 h2 h3 h4 h5
    unfold getStatusText
    rw [if_neg h2, if_neg h3, if_neg h4, if_neg h1, if_pos h5]

/-- Witness for C9's amended theorem at an unrecognized plain status and
at an inherited-member name. -/
theorem c9_witness :
    getStatusText "cancelled" = JsValue.str "cancelled" ∧
    getStatusText "valueOf" = JsValue.inherited "valueOf" :=
  ⟨c9_statusText_mapping.2.2.2.2.1 "cancelled" (by decide) (by decide)
      (by decide) (by decide) (by decide),
   c9_statusText_mapping.2.2.2.2.2 "valueOf" (by decide) (by decide)
      (by decide) (by decide) (by decide)⟩

end StockAnalysis
